import Mathlib

/-!
Shallow embedding of the EtherSignal repository core:
the `SpectrumMarket` ledger contract (Solidity), and the provider process
(`SpectrumProvider`): its poller, grant decision engine, and submission queue.
Machine integers are modelled as `Nat` with explicit `% 2^w` where the source
performs a truncating cast; Solidity 0.8 checked arithmetic reverts on overflow.
-/

namespace EtherSignal

/-! ### Ledger contract: `SpectrumMarket` (src/unnamed/part_001)

Addresses and `bytes32` device ids are modelled as `Nat`.
A Solidity `mapping(bytes32 => Grant)` defaults every key to the all-zero
record, modelled as a total function defaulting to `Grant.zero`. -/

structure Grant where
  provider : Nat
  paidAmount : Nat
  frequency : Nat
  expiresAt : Nat
deriving Repr, DecidableEq

def Grant.zero : Grant := ⟨0, 0, 0, 0⟩

structure MarketState where
  activeGrants : Nat → Grant
  totalCollected : Nat

inductive Event where
  | accessGranted (deviceId frequency duration amount provider timestamp : Nat)
  | accessRevoked (deviceId provider timestamp : Nat)
deriving Repr, DecidableEq

inductive SMErr where
  | insufficientPayment
  | invalidDuration
  | invalidFrequency
  | notProvider
  | grantExpired
  | overflow
deriving Repr, DecidableEq

/-- `0.001 ether` in wei, the fixed minimum unit price. -/
def minPayment : Nat := 10 ^ 15

def U32 : Nat := 2 ^ 32
def U96 : Nat := 2 ^ 96
def U256 : Nat := 2 ^ 256

/-- `grantAccess(deviceId, frequency, duration)` with `msg.sender = sender`,
`msg.value = value`, `block.timestamp = now`.  Checks in source order; on
success overwrites the device's grant, accumulates `totalCollected`
(checked `uint256` addition: reverts on overflow), and emits `AccessGranted`.
The `uint96(msg.value)` and `uint32(block.timestamp + duration)` casts
truncate, modelled by `% U96` and `% U32`. -/
def grantAccess (st : MarketState) (sender value now deviceId frequency duration : Nat) :
    Except SMErr (MarketState × List Event) :=
  if value < minPayment then .error .insufficientPayment
  else if duration = 0 ∨ duration > 3600 then .error .invalidDuration
  else if frequency = 0 then .error .invalidFrequency
  else if U256 ≤ st.totalCollected + value then .error .overflow
  else
    let amount := value % U96
    let g : Grant := ⟨sender, amount, frequency, (now + duration) % U32⟩
    .ok ({ activeGrants := fun d => if d = deviceId then g else st.activeGrants d,
           totalCollected := st.totalCollected + value },
         [.accessGranted deviceId frequency duration amount sender now])

/-- `revokeAccess(deviceId)` with `msg.sender = sender`, `block.timestamp = now`:
`NotProvider` if the stored grant's provider is not the caller, `GrantExpired`
if `expiresAt <= block.timestamp`; otherwise deletes the grant (mapping entry
resets to the all-zero record) and emits `AccessRevoked`. -/
def revokeAccess (st : MarketState) (sender now deviceId : Nat) :
    Except SMErr (MarketState × List Event) :=
  let grant := st.activeGrants deviceId
  if grant.provider ≠ sender then .error .notProvider
  else if grant.expiresAt ≤ now then .error .grantExpired
  else
    .ok ({ st with activeGrants := fun d => if d = deviceId then Grant.zero else st.activeGrants d },
         [.accessRevoked deviceId sender now])

/-- `canTransmit(deviceId)`: `activeGrants[deviceId].expiresAt > block.timestamp`. -/
def canTransmit (st : MarketState) (now deviceId : Nat) : Bool :=
  now < (st.activeGrants deviceId).expiresAt

/-- `getGrant(deviceId)`: the stored record (all-zero if never granted / deleted). -/
def getGrant (st : MarketState) (deviceId : Nat) : Grant :=
  st.activeGrants deviceId

/-- A ledger transaction applied atomically (EVM semantics): a revert leaves the
state exactly as before and emits nothing.  Returns (state, events, error?). -/
def applyTx (f : MarketState → Except SMErr (MarketState × List Event))
    (st : MarketState) : MarketState × List Event × Option SMErr :=
  match f st with
  | .ok (st', ev) => (st', ev, none)
  | .error e => (st, [], some e)

/-! ### Submission queue (src/unnamed/part_002, `txQueue`)

The provider serializes all ledger-mutating calls through
`new PQueue({ concurrency: 1 })` and `txQueue.add(...)`.  `p-queue` is an
external npm dependency, not part of this repository. -/

/-- One queued submission task: a ledger transaction attempt. -/
def QTask := MarketState → Except SMErr (MarketState × List Event)

/-- Start/finish events of queued tasks, for stating the concurrency bound. -/
inductive QEvent where
  | taskStart (i : Nat)
  | taskFinish (i : Nat)
deriving Repr, DecidableEq

/-- Modelled from the spec: the Submission Queue (the external `p-queue`
library configured with `concurrency: 1`) accepts tasks in FIFO order and runs
them strictly one at a time; each task either commits its ledger effect or
fails atomically, and a failure does not cancel later tasks.  Returns the final
ledger state, the per-task outcomes `(index, events, error?)` in completion
order, and the start/finish trace. -/
def runQueue (i : Nat) (tasks : List QTask) (st : MarketState) :
    MarketState × List (Nat × List Event × Option SMErr) × List QEvent :=
  match tasks with
  | [] => (st, [], [])
  | t :: ts =>
    let r := applyTx t st
    let rest := runQueue (i + 1) ts r.1
    (rest.1, (i, r.2.1, r.2.2) :: rest.2.1,
     QEvent.taskStart i :: QEvent.taskFinish i :: rest.2.2)

def isStart : QEvent → Bool
  | .taskStart _ => true
  | .taskFinish _ => false

def isFinish : QEvent → Bool
  | .taskStart _ => false
  | .taskFinish _ => true

/-- Number of tasks in flight after a prefix of the trace:
tasks started minus tasks finished. -/
def inFlight (trace : List QEvent) : Int :=
  (trace.countP isStart : Int) - (trace.countP isFinish : Int)

/-! ### Grant decision engine (src/unnamed/part_002, `handleSignalData`) -/

structure DeviceState where
  hasGrant : Bool
  grantExpires : Nat
  lastSNR : Int
deriving Repr, DecidableEq

/-- State used for a device never seen before:
`{ hasGrant: false, grantExpires: 0, lastSNR: 0 }`. -/
def defaultDeviceState : DeviceState := ⟨false, 0, 0⟩

inductive Action where
  | grant
  | revoke
  | noAction
deriving Repr, DecidableEq

/-- The per-sample decision and optimistic state update of `handleSignalData`:
`shouldHaveGrant = snr >= MIN_SNR`, `grantExpired = grantExpires < now`;
case 1 (GRANT) sets `{hasGrant: true, grantExpires: now + 10000, lastSNR: snr}`,
case 2 (REVOKE) sets `{hasGrant: false, grantExpires: 0, lastSNR: snr}`,
otherwise no action and no state change. -/
def decideSignal (minSNR : Int) (now : Nat) (snr : Int) (cur : DeviceState) :
    Action × DeviceState :=
  let shouldHaveGrant : Bool := decide (snr ≥ minSNR)
  let grantExpired : Bool := decide (cur.grantExpires < now)
  if shouldHaveGrant && (!cur.hasGrant || grantExpired) then
    (.grant, ⟨true, now + 10000, snr⟩)
  else if !shouldHaveGrant && cur.hasGrant && !grantExpired then
    (.revoke, ⟨false, 0, snr⟩)
  else
    (.noAction, cur)

/-- What the submission-failure handler leaves in `deviceStates`:
the grant task's catch runs `deviceStates.set(deviceId, currentState)`,
restoring the captured pre-optimistic state; the revoke task's catch only
logs the error and performs no state change, so the optimistic value stays. -/
def settleFailure (act : Action) (pre optimistic : DeviceState) : DeviceState :=
  match act with
  | .grant => pre
  | .revoke => optimistic
  | .noAction => optimistic

/-- One full `handleSignalData` step for a device: decision, optimistic update,
and — when the queued submission fails (`submitOk = false`) — the catch
handler's effect on the device state. -/
def handleSignal (minSNR : Int) (now : Nat) (snr : Int) (cur : DeviceState)
    (submitOk : Bool) : Action × DeviceState :=
  let r := decideSignal minSNR now snr cur
  if submitOk then r else (r.1, settleFailure r.1 cur r.2)

/-- Process a sequence of `(now, snr)` samples for one device, all submissions
succeeding; returns the emitted actions in order and the final device state. -/
def runSignals (minSNR : Int) (samples : List (Nat × Int)) (cur : DeviceState) :
    List Action × DeviceState :=
  match samples with
  | [] => ([], cur)
  | (now, snr) :: rest =>
    let r := handleSignal minSNR now snr cur true
    let rs := runSignals minSNR rest r.2
    (r.1 :: rs.1, rs.2)

/-! ### Poller (src/unnamed/part_002, `pollForSignals`)

`lastProcessedIndex` starts at `-1n` (an `Int` here).  Each tick reads the
total record count, then for `i = lastProcessedIndex + 1 .. total - 1` fetches
`getAtIndex(i)`.  A fetch can resolve to a record, resolve to a falsy value
(the `if (data)` guard skips it without advancing the cursor), or throw — a
throw is caught by the tick-level `catch`, aborting the rest of the tick. -/

inductive FetchR where
  | fetchOk
  | fetchEmpty
  | fetchThrow
deriving Repr, DecidableEq

/-- The body of one tick's `for` loop from index `i` with cursor `cursor`:
returns the final cursor and the list of dispatched indices, in order.
`fetchOk` dispatches `i` and sets the cursor to `i`; `fetchEmpty` leaves the
cursor and moves on to `i + 1`; `fetchThrow` ends the tick.  The loop runs at
most `total - i` iterations; `fuel` is a structural bound on that count
(callers pass `fuel = total`), so that the recursion is structural. -/
def pollLoop (fetch : Nat → FetchR) (total : Nat) :
    Nat → Nat → Int → Int × List Nat
  | 0, _, cursor => (cursor, [])
  | fuel + 1, i, cursor =>
    if i < total then
      match fetch i with
      | .fetchOk =>
        let rest := pollLoop fetch total fuel (i + 1) (i : Int)
        (rest.1, i :: rest.2)
      | .fetchEmpty => pollLoop fetch total fuel (i + 1) cursor
      | .fetchThrow => (cursor, [])
    else (cursor, [])

/-- One poll tick: `countR = none` models the count fetch throwing; a zero
count returns immediately; otherwise the loop runs from `lastProcessedIndex + 1`. -/
def pollTick (countR : Option Nat) (fetch : Nat → FetchR) (cursor : Int) :
    Int × List Nat :=
  match countR with
  | none => (cursor, [])
  | some 0 => (cursor, [])
  | some total => pollLoop fetch total total (cursor + 1).toNat cursor

/-- A sequence of poll ticks (each tick runs to completion before the next,
per the single-threaded cooperative scheduling model); returns the final
cursor and all dispatched indices in dispatch order. -/
def pollRun (ticks : List (Option Nat × (Nat → FetchR))) (cursor : Int) :
    Int × List Nat :=
  match ticks with
  | [] => (cursor, [])
  | t :: rest =>
    let r := pollTick t.1 t.2 cursor
    let rs := pollRun rest r.1
    (rs.1, r.2 ++ rs.2)

/-- Example fetch behavior: `getAtIndex(0)` resolves to a falsy value
(`fetchEmpty`), every other index resolves to a record. -/
def exEmptyFetch : Nat → FetchR := fun i => if i = 0 then .fetchEmpty else .fetchOk

/-- Example fetch behavior: every index resolves to a record. -/
def exOkFetch : Nat → FetchR := fun _ => .fetchOk

/-! ### Concrete example states for witnesses and counterexamples -/

/-- Example ledger state: device 7 holds a grant from provider 9 expiring at
500, device 5 holds a grant from provider 1 expiring at 50. -/
def stEx : MarketState :=
  ⟨fun d => if d = 7 then ⟨9, 5, 99, 500⟩
            else if d = 5 then ⟨1, 20, 2400, 50⟩
            else Grant.zero, 3⟩

/-- Example queue task: a valid grant submission by provider 1 for device 170. -/
def tgEx : QTask := fun s => grantAccess s 1 (10 ^ 15) 0 170 2400 10

/-- Example queue task that always fails: a grant submission with zero payment. -/
def tfailEx : QTask := fun s => grantAccess s 1 0 0 170 2400 10

/-! ### Theorems -/

/-- Helper: the success path of `grantAccess`, with the stored record spelled out. -/
theorem grantAccess_ok (st : MarketState) (sender value now deviceId frequency duration : Nat)
    (hv : minPayment ≤ value) (hd0 : 0 < duration) (hd : duration ≤ 3600)
    (hf : 0 < frequency) (ho : st.totalCollected + value < U256) :
    grantAccess st sender value now deviceId frequency duration =
      .ok ({ activeGrants := fun d =>
               if d = deviceId then ⟨sender, value % U96, frequency, (now + duration) % U32⟩
               else st.activeGrants d,
             totalCollected := st.totalCollected + value },
           [.accessGranted deviceId frequency duration (value % U96) sender now]) := by
  unfold grantAccess
  rw [if_neg (by omega), if_neg (by omega), if_neg (by omega), if_neg (by omega)]

/-- C5: `canTransmit(deviceId)` returns true iff a Grant record exists for the
device (is not the all-zero record) and its `expiresAt` is strictly greater
than the current time; in particular it is false for a never-granted device
(all-zero record) and for a device whose grant has expired. -/
theorem canTransmit_iff_active (st : MarketState) (now deviceId : Nat) :
    canTransmit st now deviceId = true ↔
      getGrant st deviceId ≠ Grant.zero ∧ now < (getGrant st deviceId).expiresAt := by
  unfold canTransmit getGrant
  rw [decide_eq_true_iff]
  constructor
  · intro h
    refine ⟨fun hz => ?_, h⟩
    rw [hz] at h
    simp [Grant.zero] at h
  · exact fun h => h.2

/-- Witness for C5 at concrete inputs: device 7 of `stEx` can transmit at time
100 (grant present, expires at 500), and by the same theorem a never-granted
device cannot. -/
theorem canTransmit_iff_active_witness :
    canTransmit stEx 100 7 = true ∧ canTransmit stEx 100 99 ≠ true :=
  ⟨(canTransmit_iff_active stEx 100 7).mpr (by constructor <;> simp [stEx, getGrant, Grant.zero]),
   fun h => by
     have h2 := (canTransmit_iff_active stEx 100 99).mp h
     exact h2.1 (by simp [stEx, getGrant, Grant.zero])⟩

/-- C4: a successful `grantAccess(deviceId, frequency, duration)` with payment
`value` by `sender` unconditionally overwrites any existing Grant: `getGrant`
afterwards returns exactly `{provider: sender, paidAmount: value,
frequencyMHz: frequency, expiresAt: now + duration}` regardless of the prior
state (no merging of old and new fields), and `totalCollected` increases by
`value`.  Hypotheses `value < 2^96` and `now + duration < 2^32` reflect the
ranges the source notes as always satisfied. -/
theorem grantAccess_overwrites (st : MarketState)
    (sender value now deviceId frequency duration : Nat)
    (hv : minPayment ≤ value) (hv96 : value < U96)
    (hd0 : 0 < duration) (hd : duration ≤ 3600) (hf : 0 < frequency)
    (ht : now + duration < U32) (ho : st.totalCollected + value < U256) :
    ∃ st' ev, grantAccess st sender value now deviceId frequency duration = .ok (st', ev) ∧
      getGrant st' deviceId = ⟨sender, value, frequency, now + duration⟩ ∧
      st'.totalCollected = st.totalCollected + value := by
  refine ⟨_, _, grantAccess_ok st sender value now deviceId frequency duration hv hd0 hd hf ho,
    ?_, rfl⟩
  simp [getGrant, Nat.mod_eq_of_lt hv96, Nat.mod_eq_of_lt ht]

/-- Witness for C4: overwriting device 7's existing grant (provider 9) in
`stEx` with a fresh grant from provider 2. -/
theorem grantAccess_overwrites_witness :
    ∃ st' ev, grantAccess stEx 2 (10 ^ 15) 100 7 2400 10 = .ok (st', ev) ∧
      getGrant st' 7 = ⟨2, 10 ^ 15, 2400, 110⟩ ∧
      st'.totalCollected = stEx.totalCollected + 10 ^ 15 :=
  grantAccess_overwrites stEx 2 (10 ^ 15) 100 7 2400 10
    (by norm_num [minPayment]) (by norm_num [U96]) (by norm_num) (by norm_num)
    (by norm_num) (by norm_num [U32]) (by norm_num [stEx, U256])

/-- C6: `grantAccess` fails with `InsufficientPayment` whenever the payment is
below `0.001 ether`; with sufficient payment it fails with `InvalidDuration`
whenever the duration is 0 or exceeds 3600; with sufficient payment and a
valid duration it fails with `InvalidFrequency` whenever the frequency is 0;
and with sufficient payment and nonzero frequency, duration 3600 succeeds. -/
theorem grantAccess_validation (st : MarketState)
    (sender value now deviceId frequency duration : Nat) :
    (value < minPayment →
      grantAccess st sender value now deviceId frequency duration =
        .error .insufficientPayment) ∧
    (minPayment ≤ value → (duration = 0 ∨ 3600 < duration) →
      grantAccess st sender value now deviceId frequency duration =
        .error .invalidDuration) ∧
    (minPayment ≤ value → 0 < duration → duration ≤ 3600 → frequency = 0 →
      grantAccess st sender value now deviceId frequency duration =
        .error .invalidFrequency) ∧
    (minPayment ≤ value → 0 < frequency → st.totalCollected + value < U256 →
      ∃ st' ev, grantAccess st sender value now deviceId frequency 3600 = .ok (st', ev)) := by
  refine ⟨fun h1 => ?_, fun h1 h2 => ?_, fun h1 h2 h3 h4 => ?_, fun h1 h2 h3 => ?_⟩
  · unfold grantAccess
    rw [if_pos (by omega)]
  · unfold grantAccess
    rw [if_neg (by omega), if_pos (by omega)]
  · unfold grantAccess
    rw [if_neg (by omega), if_neg (by omega), if_pos (by omega)]
  · exact ⟨_, _, grantAccess_ok st sender value now deviceId frequency 3600 h1
      (by omega) (by omega) h2 h3⟩

/-- Witness for C6 at the spec's concrete scenario (`deviceId = 0xAA..`
modelled as 170, frequency 2400): payment `10^14 < 0.001 ether` fails with
`InsufficientPayment`; duration 0 and 3601 fail with `InvalidDuration`;
frequency 0 fails with `InvalidFrequency`; duration 3600 succeeds. -/
theorem grantAccess_validation_witness :
    grantAccess stEx 1 (10 ^ 14) 50 170 2400 10 = .error .insufficientPayment ∧
    grantAccess stEx 1 (10 ^ 15) 50 170 2400 0 = .error .invalidDuration ∧
    grantAccess stEx 1 (10 ^ 15) 50 170 2400 3601 = .error .invalidDuration ∧
    grantAccess stEx 1 (10 ^ 15) 50 170 0 100 = .error .invalidFrequency ∧
    ∃ st' ev, grantAccess stEx 1 (10 ^ 15) 50 170 2400 3600 = .ok (st', ev) :=
  ⟨(grantAccess_validation stEx 1 (10 ^ 14) 50 170 2400 10).1 (by norm_num [minPayment]),
   (grantAccess_validation stEx 1 (10 ^ 15) 50 170 2400 0).2.1
     (by norm_num [minPayment]) (by norm_num),
   (grantAccess_validation stEx 1 (10 ^ 15) 50 170 2400 3601).2.1
     (by norm_num [minPayment]) (by norm_num),
   (grantAccess_validation stEx 1 (10 ^ 15) 50 170 0 100).2.2.1
     (by norm_num [minPayment]) (by norm_num) (by norm_num) rfl,
   (grantAccess_validation stEx 1 (10 ^ 15) 50 170 2400 0).2.2.2
     (by norm_num [minPayment]) (by norm_num) (by norm_num [stEx, U256])⟩

/-- Helper: `revokeAccess` fails with `NotProvider` whenever the stored
provider differs from the caller, regardless of expiry. -/
theorem revokeAccess_notProvider (st : MarketState) (sender now deviceId : Nat)
    (h : (st.activeGrants deviceId).provider ≠ sender) :
    revokeAccess st sender now deviceId = .error .notProvider := by
  unfold revokeAccess
  rw [if_pos h]

/-- Helper: the success path of `revokeAccess` deletes the grant. -/
theorem revokeAccess_ok (st : MarketState) (sender now deviceId : Nat)
    (hp : (st.activeGrants deviceId).provider = sender)
    (hact : now < (st.activeGrants deviceId).expiresAt) :
    revokeAccess st sender now deviceId =
      .ok ({ st with activeGrants := fun d =>
               if d = deviceId then Grant.zero else st.activeGrants d },
           [.accessRevoked deviceId sender now]) := by
  unfold revokeAccess
  rw [if_neg (by simp [hp]), if_neg (by omega)]

/-- Counterexample to C7: in `stEx`, device 5's grant has provider 1 and
`expiresAt = 50`.  At time 100 (at-or-after expiry) a call by address 2 fails
with `NotProvider`, not `GrantExpired`: the provider check runs first, so
"fails with GrantExpired ... regardless of which address calls it" is false. -/
theorem revokeAccess_expired_nonprovider_cex :
    revokeAccess stEx 2 100 5 = Except.error SMErr.notProvider ∧
    revokeAccess stEx 2 100 5 ≠ Except.error SMErr.grantExpired := by
  have h1 : revokeAccess stEx 2 100 5 = Except.error SMErr.notProvider := rfl
  refine ⟨h1, ?_⟩
  rw [h1]
  simp

/-- C7 as amended: `revokeAccess` fails with `NotProvider` whenever the caller
differs from the stored provider (even on an expired grant — the provider
check takes precedence); fails with `GrantExpired` when the provider itself
calls at or after `expiresAt`; and when the provider calls while the grant is
still active it succeeds and deletes the Grant entirely. -/
theorem revokeAccess_cases (st : MarketState) (sender now deviceId : Nat) :
    ((getGrant st deviceId).provider ≠ sender →
      revokeAccess st sender now deviceId = .error .notProvider) ∧
    ((getGrant st deviceId).provider = sender →
      (getGrant st deviceId).expiresAt ≤ now →
      revokeAccess st sender now deviceId = .error .grantExpired) ∧
    ((getGrant st deviceId).provider = sender →
      now < (getGrant st deviceId).expiresAt →
      ∃ st' ev, revokeAccess st sender now deviceId = .ok (st', ev) ∧
        getGrant st' deviceId = Grant.zero) := by
  refine ⟨revokeAccess_notProvider st sender now deviceId, fun h1 h2 => ?_, fun h1 h2 => ?_⟩
  · unfold revokeAccess
    rw [if_neg (by simp [getGrant] at h1; simp [h1]), if_pos (by simpa [getGrant] using h2)]
  · exact ⟨_, _, revokeAccess_ok st sender now deviceId h1 h2, by simp [getGrant]⟩

/-- Witness for the amended C7 on `stEx`: a non-provider caller on active
device 7 gets `NotProvider`; provider 1 calling on device 5 at time 100
(expired at 50) gets `GrantExpired`; provider 9 revoking active device 7 at
time 100 succeeds and zeroes the record. -/
theorem revokeAccess_cases_witness :
    revokeAccess stEx 4 100 7 = .error .notProvider ∧
    revokeAccess stEx 1 100 5 = .error .grantExpired ∧
    ∃ st' ev, revokeAccess stEx 9 100 7 = .ok (st', ev) ∧ getGrant st' 7 = Grant.zero :=
  ⟨(revokeAccess_cases stEx 4 100 7).1 (by simp [stEx, getGrant]),
   (revokeAccess_cases stEx 1 100 5).2.1 (by simp [stEx, getGrant]) (by simp [stEx, getGrant]),
   (revokeAccess_cases stEx 9 100 7).2.2 (by simp [stEx, getGrant]) (by simp [stEx, getGrant])⟩

/-- C8: for a device whose stored grant belongs to caller `p` (a nonzero
address, as senders are) and is still active, a first `revokeAccess` by `p`
succeeds and deletes the grant — `getGrant` then returns the all-zero record —
and a second `revokeAccess` by the same former provider fails with
`NotProvider`, since the zeroed record's provider field is 0 ≠ p. -/
theorem revokeAccess_once_then_fails (st : MarketState) (p now now2 deviceId : Nat)
    (hp : (getGrant st deviceId).provider = p) (hp0 : p ≠ 0)
    (hact : now < (getGrant st deviceId).expiresAt) :
    ∃ st' ev, revokeAccess st p now deviceId = .ok (st', ev) ∧
      getGrant st' deviceId = Grant.zero ∧
      revokeAccess st' p now2 deviceId = .error .notProvider := by
  refine ⟨_, _, revokeAccess_ok st p now deviceId hp hact, by simp [getGrant], ?_⟩
  refine revokeAccess_notProvider _ p now2 deviceId ?_
  simp [Grant.zero]
  omega

/-- Witness for C8: provider 9 revokes device 7 of `stEx` at time 100, then a
second revoke by 9 at time 200 fails with `NotProvider`. -/
theorem revokeAccess_once_then_fails_witness :
    ∃ st' ev, revokeAccess stEx 9 100 7 = .ok (st', ev) ∧
      getGrant st' 7 = Grant.zero ∧
      revokeAccess st' 9 200 7 = .error .notProvider :=
  revokeAccess_once_then_fails stEx 9 100 200 7 (by simp [stEx, getGrant])
    (by norm_num) (by simp [stEx, getGrant])

/-- Helper: a transaction whose result carries an error leaves the ledger
state untouched and emits no events (EVM revert semantics of `applyTx`). -/
theorem applyTx_error_frame (f : MarketState → Except SMErr (MarketState × List Event))
    (st : MarketState) (e : SMErr) (h : (applyTx f st).2.2 = some e) :
    (applyTx f st).1 = st ∧ (applyTx f st).2.1 = [] := by
  unfold applyTx at *
  cases hf : f st with
  | ok p => rw [hf] at h; simp at h
  | error e2 => exact ⟨rfl, rfl⟩

/-- C10: whenever `grantAccess` reverts with `InsufficientPayment`,
`InvalidDuration` or `InvalidFrequency`, and whenever `revokeAccess` reverts
with `NotProvider` or `GrantExpired`, the entire ledger state — the Grant
record for every device and `totalCollected` — is exactly as before the call,
and no event is emitted. -/
theorem revert_atomicity (st : MarketState)
    (sender value now deviceId frequency duration : Nat) (e : SMErr) :
    ((e = .insufficientPayment ∨ e = .invalidDuration ∨ e = .invalidFrequency) →
      (applyTx (fun s => grantAccess s sender value now deviceId frequency duration) st).2.2
        = some e →
      (applyTx (fun s => grantAccess s sender value now deviceId frequency duration) st).1
        = st ∧
      (applyTx (fun s => grantAccess s sender value now deviceId frequency duration) st).2.1
        = []) ∧
    ((e = .notProvider ∨ e = .grantExpired) →
      (applyTx (fun s => revokeAccess s sender now deviceId) st).2.2 = some e →
      (applyTx (fun s => revokeAccess s sender now deviceId) st).1 = st ∧
      (applyTx (fun s => revokeAccess s sender now deviceId) st).2.1 = []) :=
  ⟨fun _ h => applyTx_error_frame _ st e h, fun _ h => applyTx_error_frame _ st e h⟩

/-- Witness for C10: an underpaid `grantAccess` and a wrong-caller
`revokeAccess` on `stEx` both leave the state unchanged and emit nothing. -/
theorem revert_atomicity_witness :
    ((applyTx (fun s => grantAccess s 1 0 50 170 2400 10) stEx).1 = stEx ∧
     (applyTx (fun s => grantAccess s 1 0 50 170 2400 10) stEx).2.1 = []) ∧
    ((applyTx (fun s => revokeAccess s 4 100 7) stEx).1 = stEx ∧
     (applyTx (fun s => revokeAccess s 4 100 7) stEx).2.1 = []) :=
  ⟨(revert_atomicity stEx 1 0 50 170 2400 10 SMErr.insufficientPayment).1
     (Or.inl rfl) rfl,
   (revert_atomicity stEx 4 0 100 7 2400 10 SMErr.notProvider).2
     (Or.inl rfl) rfl⟩

/-- Counterexample to C2: device state `{hasGrant: true, grantExpires: 20000,
lastSNR: 12}`, threshold 10, sample `snr = 5` at `now = 1000` emits Revoke and
optimistically sets `{hasGrant: false, grantExpires: 0, lastSNR: 5}`; when the
submission fails, the revoke task's catch only logs, so the state stays at the
optimistic value instead of being rolled back to the granted state. -/
theorem revoke_failure_no_rollback_cex :
    handleSignal 10 1000 5 ⟨true, 20000, 12⟩ false = (Action.revoke, ⟨false, 0, 5⟩) ∧
    (⟨false, 0, 5⟩ : DeviceState) ≠ ⟨true, 20000, 12⟩ := by
  constructor
  · rfl
  · decide

/-- C2 as amended: on a failed submission, a Grant decision's device state is
rolled back to its pre-optimistic value, but a failed Revoke performs no
rollback — the device state keeps the optimistic
`{hasGrant: false, grantExpires: 0, lastSNR: snr}`. -/
theorem rollback_on_failure (minSNR : Int) (now : Nat) (snr : Int) (cur : DeviceState) :
    ((handleSignal minSNR now snr cur false).1 = .grant →
      (handleSignal minSNR now snr cur false).2 = cur) ∧
    ((handleSignal minSNR now snr cur false).1 = .revoke →
      (handleSignal minSNR now snr cur false).2 = ⟨false, 0, snr⟩) := by
  unfold handleSignal decideSignal
  simp only [Bool.false_eq_true, if_false]
  split
  · exact ⟨fun _ => rfl, fun h => by simp [settleFailure] at h ⊢⟩
  · split
    · exact ⟨fun h => by simp at h, fun _ => rfl⟩
    · exact ⟨fun h => by simp at h, fun h => by simp at h⟩

/-- Witness for the amended C2: a failed Grant submission (threshold 10,
`snr = 12`, fresh device) restores the pre-optimistic default state. -/
theorem rollback_on_failure_witness :
    (handleSignal 10 1000 12 defaultDeviceState false).2 = defaultDeviceState :=
  (rollback_on_failure 10 1000 12 defaultDeviceState).1 rfl

/-- C3: for a device never sampled before, with SNR threshold 10 and the later
samples arriving before the 10-second (10000 ms) local expiry of the first
grant, the SNR sequence [12, 14, 8, 16] produces exactly the actions
[Grant, NoAction, Revoke, Grant]. -/
theorem snr_sequence_actions (t0 t1 t2 t3 : Nat)
    (h1 : t1 < t0 + 10000) (h2 : t2 < t0 + 10000) :
    (runSignals 10 [(t0, 12), (t1, 14), (t2, 8), (t3, 16)] defaultDeviceState).1 =
      [.grant, .noAction, .revoke, .grant] := by
  have h1' : ¬ (t0 + 10000 < t1) := by omega
  have h2' : ¬ (t0 + 10000 < t2) := by omega
  simp [runSignals, handleSignal, decideSignal, defaultDeviceState, h1', h2']

/-- Witness for C3 at concrete times 0, 1, 2, 3 ms. -/
theorem snr_sequence_actions_witness :
    (runSignals 10 [(0, 12), (1, 14), (2, 8), (3, 16)] defaultDeviceState).1 =
      [.grant, .noAction, .revoke, .grant] :=
  snr_sequence_actions 0 1 2 3 (by norm_num) (by norm_num)

/-- Helper: the final ledger state of `runQueue` does not depend on the
numbering offset of the tasks. -/
theorem runQueue_state_index (i j : Nat) (ts : List QTask) (st : MarketState) :
    (runQueue i ts st).1 = (runQueue j ts st).1 := by
  induction ts generalizing i j st with
  | nil => rfl
  | cons t rest ih => simp only [runQueue]; exact ih (i + 1) (j + 1) _

/-- Helper: queued tasks execute strictly in sequence — the state after
running `ts1 ++ ts2` is obtained by running `ts2` from the state left by
`ts1`. -/
theorem runQueue_state_append (i : Nat) (ts1 ts2 : List QTask) (st : MarketState) :
    (runQueue i (ts1 ++ ts2) st).1 =
      (runQueue (i + ts1.length) ts2 (runQueue i ts1 st).1).1 := by
  induction ts1 generalizing i st with
  | nil => simp [runQueue]
  | cons t ts ih =>
    simp only [List.cons_append, runQueue, List.length_cons, List.append_eq]
    rw [ih (i + 1)]
    exact runQueue_state_index _ _ _ _

/-- Helper: the per-task outcomes of the queue carry the task indices in
enqueue (FIFO) order. -/
theorem runQueue_results_fifo (i : Nat) (ts : List QTask) (st : MarketState) :
    ((runQueue i ts st).2.1).map (fun r => r.1) = List.range' i ts.length := by
  induction ts generalizing i st with
  | nil => rfl
  | cons t rest ih =>
    simp only [runQueue, List.length_cons, List.map_cons, List.range']
    exact congrArg _ (ih (i + 1) _)

/-- Helper: along every prefix of the start/finish trace of `runQueue`, the
number of tasks in flight stays between 0 and 1. -/
theorem runQueue_trace_balanced (ts : List QTask) (i : Nat) (st : MarketState)
    (p s : List QEvent) (h : (runQueue i ts st).2.2 = p ++ s) :
    0 ≤ inFlight p ∧ inFlight p ≤ 1 := by
  induction ts generalizing i st p s with
  | nil =>
    have hp : p = [] := by
      cases p with
      | nil => rfl
      | cons a q => simp [runQueue] at h
    subst hp
    simp [inFlight]
  | cons t rest ih =>
    simp only [runQueue] at h
    cases p with
    | nil => simp [inFlight]
    | cons a q =>
      cases q with
      | nil =>
        rw [List.cons_append, List.nil_append] at h
        injection h with h1 h2
        subst h1
        simp [inFlight, isStart, isFinish, List.countP_cons]
      | cons b q2 =>
        rw [List.cons_append, List.cons_append] at h
        injection h with h1 h3
        injection h3 with h2 h4
        subst h1
        subst h2
        have hq := ih (i + 1) (applyTx t st).1 q2 s h4
        have he : inFlight (QEvent.taskStart i :: QEvent.taskFinish i :: q2) = inFlight q2 := by
          simp [inFlight, isStart, isFinish, List.countP_cons]
          try omega
        rw [he]
        exact hq

/-- Helper: a task that fails at its scheduled position leaves the ledger
state unchanged, so the final state is as if it were never queued. -/
theorem runQueue_failure_skip (i : Nat) (ts1 : List QTask) (t : QTask)
    (ts2 : List QTask) (st : MarketState) (e : SMErr)
    (h : t ((runQueue i ts1 st).1) = .error e) :
    (runQueue i (ts1 ++ t :: ts2) st).1 = (runQueue i (ts1 ++ ts2) st).1 := by
  rw [runQueue_state_append, runQueue_state_append]
  simp only [runQueue]
  have ha : applyTx t (runQueue i ts1 st).1 = ((runQueue i ts1 st).1, [], some e) := by
    unfold applyTx
    rw [h]
  rw [ha]
  exact runQueue_state_index _ _ _ _

/-- C9: for decisions enqueued on the Submission Queue in order, (a) their
ledger-visible effects commit in that same order — the state after running
`ts1 ++ ts2` is the state of `ts2` run from `ts1`'s final state, and the
per-task outcomes carry indices in FIFO order; (b) at no point are two
submissions in flight (the in-flight count along every trace prefix is at
most 1); (c) the failure of any one task neither blocks nor cancels the
execution of subsequently queued tasks. -/
theorem submission_queue_serializes :
    (∀ (i : Nat) (ts1 ts2 : List QTask) (st : MarketState),
      (runQueue i (ts1 ++ ts2) st).1 =
        (runQueue (i + ts1.length) ts2 (runQueue i ts1 st).1).1 ∧
      ((runQueue i ts1 st).2.1).map (fun r => r.1) = List.range' i ts1.length) ∧
    (∀ (i : Nat) (ts : List QTask) (st : MarketState) (p s : List QEvent),
      (runQueue i ts st).2.2 = p ++ s → 0 ≤ inFlight p ∧ inFlight p ≤ 1) ∧
    (∀ (i : Nat) (ts1 : List QTask) (t : QTask) (ts2 : List QTask)
        (st : MarketState) (e : SMErr),
      t ((runQueue i ts1 st).1) = .error e →
      (runQueue i (ts1 ++ t :: ts2) st).1 = (runQueue i (ts1 ++ ts2) st).1) :=
  ⟨fun i ts1 ts2 st => ⟨runQueue_state_append i ts1 ts2 st, runQueue_results_fifo i ts1 st⟩,
   fun i ts st p s h => runQueue_trace_balanced ts i st p s h,
   fun i ts1 t ts2 st e h => runQueue_failure_skip i ts1 t ts2 st e h⟩

/-- Witness for C9 on concrete tasks: a valid grant `tgEx` followed by an
always-failing grant `tfailEx`; the trace prefix `[taskStart 0]` has exactly
one task in flight, and dropping the failing middle task does not change the
final state reached by the tasks queued after it. -/
theorem submission_queue_serializes_witness :
    ((runQueue 0 ([tgEx] ++ [tfailEx]) stEx).1 =
       (runQueue (0 + [tgEx].length) [tfailEx] (runQueue 0 [tgEx] stEx).1).1 ∧
     ((runQueue 0 [tgEx] stEx).2.1).map (fun r => r.1) = List.range' 0 [tgEx].length) ∧
    (0 ≤ inFlight [QEvent.taskStart 0] ∧ inFlight [QEvent.taskStart 0] ≤ 1) ∧
    (runQueue 0 ([tgEx] ++ tfailEx :: [tgEx]) stEx).1 =
      (runQueue 0 ([tgEx] ++ [tgEx]) stEx).1 :=
  ⟨submission_queue_serializes.1 0 [tgEx] [tfailEx] stEx,
   submission_queue_serializes.2.1 0 [tgEx, tfailEx] stEx [QEvent.taskStart 0]
     [QEvent.taskFinish 0, QEvent.taskStart 1, QEvent.taskFinish 1] rfl,
   submission_queue_serializes.2.2 0 [tgEx] tfailEx [tgEx] stEx
     SMErr.insufficientPayment rfl⟩

/-- Helper: the cursor never moves backwards within one tick's loop. -/
theorem pollLoop_mono (fetch : Nat → FetchR) (total : Nat) :
    ∀ (fuel i : Nat) (c : Int), c < i →
      c ≤ (pollLoop fetch total fuel i c).1 := by
  intro fuel
  induction fuel with
  | zero => intro i c hc; exact le_refl c
  | succ m ih =>
    intro i c hc
    unfold pollLoop
    split
    · cases hfr : fetch i with
      | fetchOk =>
        simp only
        have := ih (i + 1) (i : Int) (by omega)
        omega
      | fetchEmpty => exact ih (i + 1) c (by omega)
      | fetchThrow => exact le_refl c
    · exact le_refl c

/-- Helper: the cursor never moves backwards across a tick. -/
theorem pollTick_mono (countR : Option Nat) (fetch : Nat → FetchR) (c : Int)
    (hc : -1 ≤ c) : c ≤ (pollTick countR fetch c).1 := by
  cases countR with
  | none => exact le_refl c
  | some total =>
    cases total with
    | zero => exact le_refl c
    | succ m => exact pollLoop_mono fetch (m + 1) (m + 1) (c + 1).toNat c (by omega)

/-- Helper: the cursor never moves backwards across any sequence of ticks. -/
theorem pollRun_mono (ticks : List (Option Nat × (Nat → FetchR))) :
    ∀ c : Int, -1 ≤ c → c ≤ (pollRun ticks c).1 := by
  induction ticks with
  | nil => intro c _; exact le_refl c
  | cons t rest ih =>
    intro c hc
    have h1 := pollTick_mono t.1 t.2 c hc
    have h2 := ih (pollTick t.1 t.2 c).1 (by omega)
    simpa [pollRun] using le_trans h1 h2

/-- Helper: when no fetch resolves to a falsy value, one loop pass dispatches
a contiguous ascending run starting right after the cursor, and leaves the
cursor on the last dispatched index. -/
theorem pollLoop_no_empty (fetch : Nat → FetchR) (total : Nat)
    (hf : ∀ j, fetch j ≠ .fetchEmpty) :
    ∀ (fuel i : Nat) (c : Int), total - i ≤ fuel → c + 1 = i →
      ∃ k : Nat, (pollLoop fetch total fuel i c).2 = List.range' i k ∧
        (pollLoop fetch total fuel i c).1 = c + (k : Int) := by
  intro fuel
  induction fuel with
  | zero =>
    intro i c hn hc
    exact ⟨0, rfl, by simp [pollLoop]⟩
  | succ m ih =>
    intro i c hn hc
    unfold pollLoop
    split
    · cases hfr : fetch i with
      | fetchOk =>
        obtain ⟨k, h2, h1⟩ := ih (i + 1) (i : Int) (by omega) (by omega)
        refine ⟨k + 1, ?_, ?_⟩
        · simp only [h2, List.range'_succ]
        · simp only [h1]
          omega
      | fetchEmpty => exact absurd hfr (hf i)
      | fetchThrow => exact ⟨0, rfl, by simp⟩
    · exact ⟨0, rfl, by simp⟩

/-- Helper: `pollLoop_no_empty` lifted to a full tick. -/
theorem pollTick_no_empty (countR : Option Nat) (fetch : Nat → FetchR) (c : Int)
    (hc : -1 ≤ c) (hf : ∀ j, fetch j ≠ .fetchEmpty) :
    ∃ k : Nat, (pollTick countR fetch c).1 = c + (k : Int) ∧
      (pollTick countR fetch c).2 = List.range' (c + 1).toNat k := by
  cases countR with
  | none => exact ⟨0, by simp [pollTick], by simp [pollTick, List.range']⟩
  | some total =>
    cases total with
    | zero => exact ⟨0, by simp [pollTick], by simp [pollTick, List.range']⟩
    | succ m =>
      obtain ⟨k, h2, h1⟩ :=
        pollLoop_no_empty fetch (m + 1) hf (m + 1) (c + 1).toNat c (by omega) (by omega)
      exact ⟨k, by simpa [pollTick] using h1, by simpa [pollTick] using h2⟩

/-- Helper: across any sequence of ticks whose fetches never resolve falsy,
the dispatched indices form the contiguous ascending run following the
initial cursor, with the final cursor on its last element. -/
theorem pollRun_no_empty (ticks : List (Option Nat × (Nat → FetchR)))
    (hf : ∀ t ∈ ticks, ∀ j, t.2 j ≠ FetchR.fetchEmpty) :
    ∀ c : Int, -1 ≤ c →
      ∃ k : Nat, (pollRun ticks c).1 = c + (k : Int) ∧
        (pollRun ticks c).2 = List.range' (c + 1).toNat k := by
  induction ticks with
  | nil =>
    intro c hc
    exact ⟨0, by simp [pollRun], by simp [pollRun, List.range']⟩
  | cons t rest ih =>
    intro c hc
    obtain ⟨k1, h1, h2⟩ := pollTick_no_empty t.1 t.2 c hc (hf t (by simp))
    obtain ⟨k2, h3, h4⟩ := ih (fun u hu j => hf u (by simp [hu]) j) (c + k1) (by omega)
    refine ⟨k1 + k2, ?_, ?_⟩
    · simp only [pollRun, h1, h3]
      omega
    · simp only [pollRun, h1, h2, h4]
      have ha : ((c + k1) + 1).toNat = (c + 1).toNat + k1 := by omega
      rw [ha, List.range'_append_1, Nat.add_comm]

/-- Helper: one tick never advances the cursor past an index whose fetch
throws (that index is retried from on the next tick). -/
theorem pollLoop_throw_stops (fetch : Nat → FetchR) (total j : Nat)
    (hj : fetch j = .fetchThrow) :
    ∀ (fuel i : Nat) (c : Int), i ≤ j → c < j →
      (pollLoop fetch total fuel i c).1 < j := by
  intro fuel
  induction fuel with
  | zero => intro i c _ hc; exact hc
  | succ m ih =>
    intro i c hi hc
    unfold pollLoop
    split
    · cases hfr : fetch i with
      | fetchOk =>
        have hij : i ≠ j := fun h => by rw [h, hj] at hfr; cases hfr
        have := ih (i + 1) (i : Int) (by omega) (by omega)
        simpa using this
      | fetchEmpty =>
        have hij : i ≠ j := fun h => by rw [h, hj] at hfr; cases hfr
        exact ih (i + 1) c (by omega) hc
      | fetchThrow => exact hc
    · exact hc

/-- Counterexample to C1: with 2 published records where `getAtIndex(0)`
resolves to a falsy value and `getAtIndex(1)` to a record, the first tick
dispatches only index 1 and sets the cursor to 1 — the cursor advances past
the failed index 0, which is never dispatched and never retried (a second
fully-successful tick dispatches nothing), so index 0 of the N = 2 published
records is dispatched zero times, not exactly once. -/
theorem poller_skips_empty_cex :
    pollRun [(some 2, exEmptyFetch), (some 2, exOkFetch)] (-1) = (1, [1]) ∧
    0 ∉ (pollRun [(some 2, exEmptyFetch), (some 2, exOkFetch)] (-1)).2 ∧
    0 < (pollRun [(some 2, exEmptyFetch), (some 2, exOkFetch)] (-1)).1 := by
  refine ⟨by decide, by decide, by decide⟩

/-- C1 as amended: provided no fetch resolves to a falsy value (fetches
either return the record or throw), the poller dispatches, across all ticks,
exactly the indices `0, 1, ..., cursor` in ascending order, each exactly once
and without gaps; the cursor only moves forward across ticks; and within a
tick the cursor never advances past an index whose fetch throws, so that
index is retried on the next tick.  (If a fetch instead resolves falsy, the
`if (data)` guard can skip its index permanently once a later index in the
same tick succeeds.) -/
theorem poller_exactly_once (ticks : List (Option Nat × (Nat → FetchR)))
    (hf : ∀ t ∈ ticks, ∀ j, t.2 j ≠ FetchR.fetchEmpty) :
    ((pollRun ticks (-1)).2 = List.range ((pollRun ticks (-1)).1 + 1).toNat) ∧
    (∀ (more : List (Option Nat × (Nat → FetchR))) (c : Int),
      -1 ≤ c → c ≤ (pollRun more c).1) ∧
    (∀ (total : Nat) (f : Nat → FetchR) (j : Nat) (c : Int),
      f j = FetchR.fetchThrow → c < j → (pollTick (some total) f c).1 < j) := by
  refine ⟨?_, fun more c hc => pollRun_mono more c hc, fun total f j c hj hc => ?_⟩
  · obtain ⟨k, h1, h2⟩ := pollRun_no_empty ticks hf (-1) (by omega)
    rw [h1, h2, List.range_eq_range']
    congr 1
    omega
  · cases total with
    | zero => exact hc
    | succ m =>
      exact pollLoop_throw_stops f (m + 1) j hj (m + 1) (c + 1).toNat c (by omega) hc

/-- Witness for the amended C1: a single tick with 2 records and all fetches
succeeding dispatches `[0, 1]` — exactly `List.range (cursor + 1)`. -/
theorem poller_exactly_once_witness :
    ((pollRun [(some 2, exOkFetch)] (-1)).2 =
      List.range ((pollRun [(some 2, exOkFetch)] (-1)).1 + 1).toNat) ∧
    (∀ (more : List (Option Nat × (Nat → FetchR))) (c : Int),
      -1 ≤ c → c ≤ (pollRun more c).1) ∧
    (∀ (total : Nat) (f : Nat → FetchR) (j : Nat) (c : Int),
      f j = FetchR.fetchThrow → c < j → (pollTick (some total) f c).1 < j) :=
  poller_exactly_once [(some 2, exOkFetch)]
    (fun t ht j => by
      simp at ht
      rw [ht]
      simp [exOkFetch])

end EtherSignal
